import Mathlib

/-
  Verification of the Connect-v2 license server (src/app.py).

  The development shallowly embeds the data model and the operations of the
  server: association lists model the SQL tables and the in-memory rate-limit
  dictionary, integers model timestamps (seconds), and each Flask handler
  becomes a pure function from server state and request to response and new
  state.  The concurrency claim about key redemption is settled over a small
  interleaving semantics of two in-flight redemption transactions with the
  row lock taken by SELECT ... FOR UPDATE.
-/

namespace Connect

/-! ## Association tables (SQL tables and the rate-limit dict) -/

/-- Lookup in an association table, first match wins (keys are unique in the
    states the program builds, mirroring SQL primary keys / dict keys). -/
def tfind? {V : Type} : List (String × V) → String → Option V
  | [], _ => none
  | kv :: rest, k => if kv.1 = k then some kv.2 else tfind? rest k

/-- Insert-or-update of a keyed row, mirroring dict assignment / SQL upsert. -/
def tset {V : Type} : List (String × V) → String → V → List (String × V)
  | [], k, v => [(k, v)]
  | kv :: rest, k, v => if kv.1 = k then (k, v) :: rest else kv :: tset rest k v

/-- Delete all rows with the given key (SQL DELETE WHERE key = k). -/
def tdel {V : Type} (t : List (String × V)) (k : String) : List (String × V) :=
  t.filter (fun kv => !decide (kv.1 = k))

theorem tfind?_tset_self {V : Type} (t : List (String × V)) (k : String) (v : V) :
    tfind? (tset t k v) k = some v := by
  induction t with
  | nil => simp [tset, tfind?]
  | cons kv rest ih =>
    by_cases h : kv.1 = k
    · simp [tset, tfind?, h]
    · simp [tset, tfind?, h, ih]

theorem tfind?_tset_ne {V : Type} (t : List (String × V)) (k k' : String) (v : V)
    (h : k' ≠ k) : tfind? (tset t k v) k' = tfind? t k' := by
  have hkk : ¬ (k = k') := fun hh => h hh.symm
  induction t with
  | nil => simp [tset, tfind?, hkk]
  | cons kv rest ih =>
    by_cases hk : kv.1 = k
    · simp [tset, tfind?, hk, hkk]
    · simp [tset, tfind?, hk, ih]

theorem tfind?_tdel_self {V : Type} (t : List (String × V)) (k : String) :
    tfind? (tdel t k) k = none := by
  induction t with
  | nil => rfl
  | cons kv rest ih =>
    simp only [tdel, List.filter_cons] at ih ⊢
    by_cases h : kv.1 = k
    · simp [h, ih]
    · simp [h, tfind?, ih]

theorem tfind?_tdel_ne {V : Type} (t : List (String × V)) (k k' : String)
    (h : k' ≠ k) : tfind? (tdel t k) k' = tfind? t k' := by
  have hkk : ¬ (k = k') := fun hh => h hh.symm
  induction t with
  | nil => rfl
  | cons kv rest ih =>
    simp only [tdel, List.filter_cons] at ih ⊢
    by_cases hk : kv.1 = k
    · simp [hk, tfind?, hkk, ih]
    · simp [hk, tfind?, ih]

/-- A key absent from a table is absent from any filtering of it. -/
theorem tfind?_filter_none {V : Type} (t : List (String × V)) (k : String)
    (p : String × V → Bool) (h : tfind? t k = none) :
    tfind? (t.filter p) k = none := by
  induction t with
  | nil => simp [tfind?]
  | cons kv rest ih =>
    by_cases hk : kv.1 = k
    · simp [tfind?, hk] at h
    · simp only [tfind?, hk, if_neg hk] at h
      by_cases hp : p kv
      · simpa [List.filter_cons, hp, tfind?, hk] using ih h
      · simpa [List.filter_cons, hp] using ih h

/-- A key whose first binding is not in the table keys is not found. -/
theorem tfind?_eq_none_of_not_mem {V : Type} (t : List (String × V)) (k : String)
    (h : k ∉ t.map Prod.fst) : tfind? t k = none := by
  induction t with
  | nil => rfl
  | cons kv rest ih =>
    simp only [List.map_cons, List.mem_cons, not_or] at h
    have hne : ¬ kv.1 = k := fun hh => h.1 hh.symm
    simp [tfind?, hne, ih h.2]

/-- Filtering keeps a found row whenever the predicate accepts it. -/
theorem tfind?_filter_keep {V : Type} (t : List (String × V)) (k : String)
    (v : V) (p : String × V → Bool)
    (h : tfind? t k = some v) (hp : p (k, v) = true) :
    tfind? (t.filter p) k = some v := by
  induction t with
  | nil => simp [tfind?] at h
  | cons kv rest ih =>
    by_cases hk : kv.1 = k
    · have hv : kv.2 = v := by simpa [tfind?, hk] using h
      have hkv : kv = (k, v) := by
        cases kv
        simp_all
    -- the found row is the head: the filter keeps it and it still matches
      rw [hkv]
      simp [List.filter_cons, hp, tfind?]
    · have h' : tfind? rest k = some v := by simpa [tfind?, hk] using h
      by_cases hpkv : p kv
      · simpa [List.filter_cons, hpkv, tfind?, hk] using ih h'
      · simpa [List.filter_cons, hpkv] using ih h'

/-- On a table with unique keys, filtering out the found row removes its key
    entirely. -/
theorem tfind?_filter_drop {V : Type} (t : List (String × V)) (k : String)
    (v : V) (p : String × V → Bool)
    (hnd : (t.map Prod.fst).Nodup)
    (h : tfind? t k = some v) (hp : p (k, v) = false) :
    tfind? (t.filter p) k = none := by
  induction t with
  | nil => simp [tfind?] at h
  | cons kv rest ih =>
    simp only [List.map_cons, List.nodup_cons] at hnd
    by_cases hk : kv.1 = k
    · have hv : kv.2 = v := by simpa [tfind?, hk] using h
      have hkv : kv = (k, v) := by
        cases kv
        simp_all
      have hrest : tfind? rest k = none :=
        tfind?_eq_none_of_not_mem rest k (hk ▸ hnd.1)
      rw [hkv]
      simp [List.filter_cons, hp, tfind?_filter_none rest k p hrest]
    · have h' : tfind? rest k = some v := by simpa [tfind?, hk] using h
      by_cases hpkv : p kv
      · simpa [List.filter_cons, hpkv, tfind?, hk] using ih hnd.2 h'
      · simpa [List.filter_cons, hpkv] using ih hnd.2 h'

/-! ## Rate limiter (check_rate_limit, lines 162-192) -/

structure RLEntry where
  count : Nat
  start : Int
deriving DecidableEq

abbrev RLStore := List (String × RLEntry)

def RATE_LIMIT_MAX_REQUESTS : Nat := 20
def RATE_LIMIT_WINDOW_SECONDS : Int := 60

/-- The size-triggered cleanup inside check_rate_limit: delete every entry
    whose window start lies before the cutoff now - window. -/
def rlCompact (s : RLStore) (now : Int) : RLStore :=
  s.filter (fun kv => !decide (kv.2.start < now - RATE_LIMIT_WINDOW_SECONDS))

/-- The lookup-and-update core of check_rate_limit (lines 176-192): reset on
    absence or elapsed window, deny at the limit, otherwise increment. -/
def rl_core (store : RLStore) (identifier : String) (now : Int) :
    Bool × RLStore :=
  match tfind? store identifier with
  | none => (true, tset store identifier ⟨1, now⟩)
  | some entry =>
    if now - entry.start > RATE_LIMIT_WINDOW_SECONDS then
      (true, tset store identifier ⟨1, now⟩)
    else if entry.count ≥ RATE_LIMIT_MAX_REQUESTS then
      (false, store)
    else
      (true, tset store identifier ⟨entry.count + 1, entry.start⟩)

/-- check_rate_limit (lines 162-192): returns (allowed, new store); runs the
    size-triggered compaction first, then the core. -/
def check_rate_limit (store : RLStore) (identifier : String) (now : Int) :
    Bool × RLStore :=
  rl_core (if store.length > 10000 then rlCompact store now else store)
    identifier now

/-- n successive calls to check_rate_limit for one identifier at one time. -/
def iterate_checks : Nat → RLStore → String → Int → List Bool × RLStore
  | 0, s, _, _ => ([], s)
  | n + 1, s, id, t =>
    let c := check_rate_limit s id t
    let rest := iterate_checks n c.2 id t
    (c.1 :: rest.1, rest.2)

/-! ## String helpers and email validation (lines 124-135) -/

/-- Python str.strip: drop whitespace from both ends. -/
def strTrim (s : String) : String :=
  ⟨((s.toList.dropWhile Char.isWhitespace).reverse.dropWhile
      Char.isWhitespace).reverse⟩

/-- Python str.lower on the ASCII range used by the service. -/
def strLower (s : String) : String :=
  ⟨s.toList.map Char.toLower⟩

def isLocalChar (c : Char) : Bool :=
  c.isAlpha || c.isDigit || c = '.' || c = '_' || c = '%' || c = '+' || c = '-'

def isDomainChar (c : Char) : Bool :=
  c.isAlpha || c.isDigit || c = '.' || c = '-'

/-- The domain side of the regex: [a-zA-Z0-9.-]+\.[a-zA-Z]\x7b2,\x7d$.
    Splitting at the last dot is exhaustive because a valid top-level label
    contains no dot. -/
def emailDomainOk (domain : List Char) : Bool :=
  let rev := domain.reverse
  let tldRev := rev.takeWhile (fun c => !decide (c = '.'))
  match rev.dropWhile (fun c => !decide (c = '.')) with
  | '.' :: beforeRev =>
    !beforeRev.isEmpty && beforeRev.all isDomainChar &&
      tldRev.all (fun c => c.isAlpha) && decide (2 ≤ tldRev.length)
  | _ => false

/-- Full-string match of the Python email regex: the local part is everything
    before the first at sign because the at sign is not a local character. -/
def emailRegexMatch (s : String) : Bool :=
  let cs := s.toList
  let localPart := cs.takeWhile (fun c => !decide (c = '@'))
  match cs.dropWhile (fun c => !decide (c = '@')) with
  | '@' :: domain => !localPart.isEmpty && localPart.all isLocalChar && emailDomainOk domain
  | _ => false

def validate_email_format (email : String) : Bool :=
  if email = "" then false
  else if 254 < email.length then false
  else emailRegexMatch (strTrim email)

def normalize_email (email : String) : String :=
  if email = "" then "" else strLower (strTrim email)

/-! ## Data model (tables created by init_db, lines 52-111) -/

inductive KeyStatus
  | unused
  | used
deriving DecidableEq

/-- A row of the licenses table. -/
structure LicenseRec where
  status : KeyStatus
  durationHours : Int
  usedByEmail : Option String
  usedAt : Option Int
deriving DecidableEq

/-- A row of the active_sessions table (created_at is never read). -/
structure SessionRec where
  expiresAt : Int
  lastActivity : Int
  keyUsed : Option String
deriving DecidableEq

/-- A row of the audit_log table. -/
structure AuditEvent where
  eventType : String
  email : Option String
  ipAddress : String
  details : Option String
deriving DecidableEq

structure DB where
  licenses : List (String × LicenseRec)
  sessions : List (String × SessionRec)
  allowed_emails : List (String × Unit)
  audit : List AuditEvent
deriving DecidableEq

structure ServerState where
  db : DB
  rl : RLStore
deriving DecidableEq

structure Config where
  enableEmailWhitelist : Bool
deriving DecidableEq

/-- log_audit_event (lines 145-160): append one event carrying the caller
    address. -/
def log_audit_event (db : DB) (eventType : String) (email : Option String)
    (ip : String) (details : Option String) : DB :=
  { db with audit := ⟨eventType, email, ip, details⟩ :: db.audit }

/-- is_email_whitelisted (lines 194-204). -/
def is_email_whitelisted (cfg : Config) (db : DB) (email : String) : Bool :=
  if !cfg.enableEmailWhitelist then true
  else (tfind? db.allowed_emails email).isSome

/-! ## Client authorization (authorize, lines 553-706) -/

structure ReqBody where
  email : Option String
  key : Option String
deriving DecidableEq

structure AuthRequest where
  body : Option ReqBody
  ip : String
deriving DecidableEq

structure AuthResponse where
  status : Nat
  authorized : Bool
  message : Option String
  error : Option String
  expires_at : Option Int
deriving DecidableEq

/-- The terminal branches of the authorize handler, in source order. -/
inductive Branch
  | rateLimited
  | noBody
  | noEmail
  | invalidEmailFormat
  | notWhitelisted
  | sessionResumed
  | keyRequired
  | invalidKeyFormat
  | keyNotFound
  | keyAlreadyUsed
  | keyActivated
deriving DecidableEq

structure AuthOutcome where
  resp : AuthResponse
  branch : Branch
  state : ServerState
deriving DecidableEq

/-- Steps 2-4 of authorize (lines 628-699): key requirement, length check,
    lookup under the row lock, one-shot activation and session upsert. -/
def authorize_key_phase (st : ServerState) (email provided_key ip : String)
    (now : Int) : AuthOutcome :=
  if provided_key = "" then
    ⟨⟨401, false, none, some "Access key required for new session", none⟩,
      .keyRequired, st⟩
  else if provided_key.length ≠ 48 then
    let db := log_audit_event st.db "INVALID_KEY_FORMAT" (some email) ip none
    ⟨⟨403, false, none, some "Invalid key format", none⟩,
      .invalidKeyFormat, { st with db := db }⟩
  else
    match tfind? st.db.licenses provided_key with
    | none =>
      let db := log_audit_event st.db "KEY_NOT_FOUND" (some email) ip none
      ⟨⟨403, false, none, some "Invalid access key", none⟩,
        .keyNotFound, { st with db := db }⟩
    | some rec =>
      if rec.status = .used then
        let db := log_audit_event st.db "KEY_ALREADY_USED" (some email) ip none
        ⟨⟨403, false, none, some "This key has already been used", none⟩,
          .keyAlreadyUsed, { st with db := db }⟩
      else
        let new_expiry := now + 3600 * rec.durationHours
        let d := rec.durationHours
        let db := { st.db with
          licenses := tset st.db.licenses provided_key
            { rec with status := .used, usedByEmail := some email, usedAt := some now },
          sessions := tset st.db.sessions email ⟨new_expiry, now, some provided_key⟩ }
        let db := log_audit_event db "KEY_ACTIVATED" (some email) ip
          (some s!"Duration: {d}h")
        ⟨⟨200, true, some s!"Access granted for {d} hours!", none, some new_expiry⟩,
          .keyActivated, { st with db := db }⟩

/-- Step 1 of authorize (lines 592-626): resume a live session, or lazily
    delete an expired one and fall through to the key phase. -/
def authorize_session_phase (st : ServerState) (email provided_key ip : String)
    (now : Int) : AuthOutcome :=
  match tfind? st.db.sessions email with
  | some sess =>
    if now < sess.expiresAt then
      let db := { st.db with
        sessions := tset st.db.sessions email { sess with lastActivity := now } }
      let db := log_audit_event db "SESSION_RESUMED" (some email) ip none
      let hours_left := (sess.expiresAt - now) / 3600
      ⟨⟨200, true, some s!"Session active. {hours_left}h remaining.", none,
          some sess.expiresAt⟩,
        .sessionResumed, { st with db := db }⟩
    else
      let db := { st.db with sessions := tdel st.db.sessions email }
      let db := log_audit_event db "SESSION_EXPIRED" (some email) ip none
      authorize_key_phase { st with db := db } email provided_key ip now
  | none => authorize_key_phase st email provided_key ip now

/-- The authorize handler (lines 553-706): rate limit, parse, validate,
    whitelist, then the session and key phases. -/
def authorize (cfg : Config) (st : ServerState) (req : AuthRequest)
    (now : Int) : AuthOutcome :=
  let ip := req.ip
  let checked := check_rate_limit st.rl ip now
  let st := { st with rl := checked.2 }
  if checked.1 = false then
    let db := log_audit_event st.db "RATE_LIMITED" none ip (some s!"IP: {ip}")
    ⟨⟨429, false, none, some "Too many requests. Please wait a minute.", none⟩,
      .rateLimited, { st with db := db }⟩
  else
    match req.body with
    | none =>
      ⟨⟨400, false, none, some "Invalid request format", none⟩, .noBody, st⟩
    | some body =>
      let email := normalize_email (body.email.getD "")
      let provided_key := strTrim (body.key.getD "")
      if email = "" then
        ⟨⟨400, false, none, some "Email is required", none⟩, .noEmail, st⟩
      else if validate_email_format email = false then
        let db := log_audit_event st.db "INVALID_EMAIL_FORMAT" (some email) ip none
        ⟨⟨400, false, none, some "Invalid email format", none⟩,
          .invalidEmailFormat, { st with db := db }⟩
      else if cfg.enableEmailWhitelist && !(is_email_whitelisted cfg st.db email) then
        let db := log_audit_event st.db "EMAIL_NOT_WHITELISTED" (some email) ip none
        ⟨⟨403, false, none, some "Email not authorized. Contact administrator.", none⟩,
          .notWhitelisted, { st with db := db }⟩
      else
        authorize_session_phase st email provided_key ip now

/-! ## Admin operations (lines 422-547) -/

structure CreateResponse where
  status : Nat
  key : Option String
  duration : Option Int
  error : Option String
deriving DecidableEq

/-- create_key (lines 422-452).  The generated random code is an input; the
    duplicate-code case surfaces as the SQLAlchemyError 500 branch. -/
def create_key (st : ServerState) (duration : Int) (code : String)
    (ip : String) : CreateResponse × ServerState :=
  if ¬ (1 ≤ duration ∧ duration ≤ 8760) then
    (⟨400, none, none, some "Duration must be between 1 and 8760 hours"⟩, st)
  else
    match tfind? st.db.licenses code with
    | some _ => (⟨500, none, none, some "Database error"⟩, st)
    | none =>
      let db := { st.db with
        licenses := tset st.db.licenses code ⟨.unused, duration, none, none⟩ }
      let db := log_audit_event db "KEY_CREATED" none ip (some s!"Duration: {duration}h")
      (⟨200, some code, some duration, none⟩, { st with db := db })

structure SimpleResponse where
  status : Nat
  message : Option String
  error : Option String
deriving DecidableEq

/-- add_to_whitelist (lines 454-477); insert with ON CONFLICT DO NOTHING. -/
def add_to_whitelist (st : ServerState) (emailRaw : String) (ip : String) :
    SimpleResponse × ServerState :=
  let email := normalize_email emailRaw
  if validate_email_format email = false then
    (⟨400, none, some "Invalid email format"⟩, st)
  else
    let allowed := match tfind? st.db.allowed_emails email with
      | some _ => st.db.allowed_emails
      | none => tset st.db.allowed_emails email ()
    let db := log_audit_event { st.db with allowed_emails := allowed }
      "EMAIL_WHITELISTED" (some email) ip none
    (⟨200, some s!"Email {email} added to whitelist", none⟩, { st with db := db })

/-- remove_from_whitelist (lines 479-500). -/
def remove_from_whitelist (st : ServerState) (emailRaw : String) (ip : String) :
    SimpleResponse × ServerState :=
  let email := normalize_email emailRaw
  match tfind? st.db.allowed_emails email with
  | some _ =>
    let db := { st.db with allowed_emails := tdel st.db.allowed_emails email }
    let db := log_audit_event db "EMAIL_REMOVED_WHITELIST" (some email) ip none
    (⟨200, some s!"Email {email} removed from whitelist", none⟩, { st with db := db })
  | none => (⟨404, none, some "Email not found in whitelist"⟩, st)

/-- cleanup_expired_sessions (lines 211-223): delete sessions past expiry. -/
def cleanup_expired_sessions (db : DB) (now : Int) : DB :=
  { db with sessions := db.sessions.filter (fun kv => !decide (kv.2.expiresAt < now)) }

/-- admin_cleanup (lines 532-547): the same sweep plus one audit event. -/
def admin_cleanup (st : ServerState) (ip : String) (now : Int) :
    SimpleResponse × ServerState :=
  let deleted := (st.db.sessions.filter (fun kv => decide (kv.2.expiresAt < now))).length
  let db := cleanup_expired_sessions st.db now
  let db := log_audit_event db "MANUAL_CLEANUP" none ip
    (some s!"Removed {deleted} expired sessions")
  (⟨200, some s!"Cleaned up {deleted} expired sessions", none⟩, { st with db := db })

/-- The state-bearing operations of the service, for the key-status
    invariant: every handler that can touch the store. -/
inductive Op
  | opCreateKey (duration : Int) (code : String)
  | opAuthorize (req : AuthRequest)
  | opWhitelistAdd (email : String)
  | opWhitelistRemove (email : String)
  | opAdminCleanup
  | opSweepExpired
  | opGetStats

def Op.isAuthorize : Op → Bool
  | .opAuthorize _ => true
  | _ => false

def applyOp (cfg : Config) (st : ServerState) (ip : String) (now : Int) :
    Op → ServerState
  | .opCreateKey d code => (create_key st d code ip).2
  | .opAuthorize req => (authorize cfg st req now).state
  | .opWhitelistAdd e => (add_to_whitelist st e ip).2
  | .opWhitelistRemove e => (remove_from_whitelist st e ip).2
  | .opAdminCleanup => (admin_cleanup st ip now).2
  | .opSweepExpired => { st with db := cleanup_expired_sessions st.db now }
  | .opGetStats => st

/-! ## Startup configuration (lines 23-37) -/

structure StartupConfig where
  dbUrl : String
  adminToken : String
deriving DecidableEq

/-- The Render URL scheme fixup (lines 28-29): when the URL starts with the
    bare postgres scheme, replace that leading scheme. -/
def fix_postgres (u : String) : String :=
  if u.toList.take 11 = "postgres://".toList then
    "postgresql://" ++ ⟨u.toList.drop 11⟩
  else u

/-- Startup configuration loading (lines 23-37): a missing or empty
    DATABASE_URL raises; a missing or empty ADMIN_TOKEN is replaced by a
    freshly generated token and startup continues. -/
def load_config (dbUrlEnv adminTokenEnv : Option String)
    (generatedToken : String) : Except String StartupConfig :=
  match dbUrlEnv with
  | none => .error "DATABASE_URL environment variable is required"
  | some u =>
    if u = "" then .error "DATABASE_URL environment variable is required"
    else
      let admin := match adminTokenEnv with
        | none => generatedToken
        | some t => if t = "" then generatedToken else t
      .ok ⟨fix_postgres u, admin⟩

/-! ## Concurrency model for two redemptions of one existing key

Two in-flight authorize calls target the same existing license row.  Each
thread first performs the unlocked session read (step 1 of the handler),
then SELECT ... FOR UPDATE on the row (lines 649-654), which takes the row
lock; the status test, one-shot UPDATE (lines 678-682) and COMMIT happen
while the lock is held and release it.  Interleaving is at the granularity
of these store round trips, driven by an arbitrary schedule. -/

inductive RedeemResult
  | activated
  | alreadyUsed
deriving DecidableEq

inductive ThreadPC
  | preRead
  | ready
  | locked (observed : KeyStatus)
  | done (r : RedeemResult)
deriving DecidableEq

/-- The store state shared by the two transactions: the license row's status
    and recorded redeemer, and the row lock of SELECT ... FOR UPDATE. -/
structure Shared where
  keyStatus : KeyStatus
  keyUsedBy : Option String
  lockHeld : Bool
deriving DecidableEq

/-- One store round trip of a single redemption transaction: pass the
    unlocked session read, take the row lock and read the status, then
    either observe used and finish, or mark the row used and finish.  A
    thread at the SELECT FOR UPDATE does not move while the lock is held. -/
def tstep (e : String) (sh : Shared) (pc : ThreadPC) : Shared × ThreadPC :=
  match pc with
  | .preRead => (sh, .ready)
  | .ready =>
    if sh.lockHeld then (sh, .ready)
    else ({ sh with lockHeld := true }, .locked sh.keyStatus)
  | .locked o =>
    if o = .used then ({ sh with lockHeld := false }, .done .alreadyUsed)
    else (⟨.used, some e, false⟩, .done .activated)
  | .done r => (sh, .done r)

structure RaceState where
  shared : Shared
  pc1 : ThreadPC
  pc2 : ThreadPC
deriving DecidableEq

/-- Interleaving: the scheduled thread performs its next store round trip. -/
def raceStep (e1 e2 : String) (s : RaceState) (tid : Bool) : RaceState :=
  if tid then
    let r := tstep e1 s.shared s.pc1
    ⟨r.1, r.2, s.pc2⟩
  else
    let r := tstep e2 s.shared s.pc2
    ⟨r.1, s.pc1, r.2⟩

/-- Both redemption attempts arrive with the key existing and unused. -/
def raceInit : RaceState :=
  ⟨⟨.unused, none, false⟩, .preRead, .preRead⟩

def raceRun (e1 e2 : String) (s : RaceState) (sched : List Bool) : RaceState :=
  sched.foldl (raceStep e1 e2) s

def lockedB : ThreadPC → Bool
  | .locked _ => true
  | _ => false

def doneB : ThreadPC → Bool
  | .done _ => true
  | _ => false

def activatedB : ThreadPC → Bool
  | .done .activated => true
  | _ => false

theorem activatedB_eq_false_of_doneB {pc : ThreadPC} (h : doneB pc = false) :
    activatedB pc = false := by
  cases pc with
  | done r => simp [doneB] at h
  | preRead => rfl
  | ready => rfl
  | locked o => rfl

theorem not_locked_of_lockedB_false {pc : ThreadPC} (h : lockedB pc = false) :
    ∀ o, pc ≠ .locked o := by
  intro o hcon
  rw [hcon] at h
  simp [lockedB] at h

/-- Inductive invariant of the race, symmetric in the two threads: the lock
    is held exactly when a thread is locked and at most one is; a locked
    thread observed the current status; while the key is unused nobody has
    finished; once it is used exactly one thread finished activated. -/
def PairInv (sh : Shared) (pcA pcB : ThreadPC) : Prop :=
  sh.lockHeld = (lockedB pcA || lockedB pcB) ∧
  ¬ (lockedB pcA = true ∧ lockedB pcB = true) ∧
  (∀ o, pcA = .locked o → o = sh.keyStatus) ∧
  (∀ o, pcB = .locked o → o = sh.keyStatus) ∧
  (sh.keyStatus = .unused → doneB pcA = false ∧ doneB pcB = false) ∧
  (sh.keyStatus = .used → activatedB pcA ≠ activatedB pcB)

theorem PairInv.swap {sh : Shared} {pcA pcB : ThreadPC}
    (h : PairInv sh pcA pcB) : PairInv sh pcB pcA := by
  obtain ⟨h1, h2, h3, h4, h5, h6⟩ := h
  refine ⟨by rw [h1, Bool.or_comm], fun hc => h2 ⟨hc.2, hc.1⟩, h4, h3,
    fun hu => ⟨(h5 hu).2, (h5 hu).1⟩, fun hu hc => h6 hu hc.symm⟩

theorem PairInv.step (e : String) {sh : Shared} {pcA pcB : ThreadPC}
    (h : PairInv sh pcA pcB) :
    PairInv (tstep e sh pcA).1 (tstep e sh pcA).2 pcB := by
  obtain ⟨hlock, hmutex, hobsA, hobsB, hunused, hused⟩ := h
  cases pcA with
  | preRead =>
    show PairInv sh .ready pcB
    refine ⟨hlock, hmutex, ?_, hobsB, ?_, ?_⟩
    · intro o ho
      exact ThreadPC.noConfusion ho
    · intro hu
      exact ⟨rfl, (hunused hu).2⟩
    · intro hu
      simpa [activatedB] using hused hu
  | ready =>
    cases hl : sh.lockHeld with
    | true =>
      have ht : tstep e sh .ready = (sh, .ready) := by simp [tstep, hl]
      rw [ht]
      show PairInv sh .ready pcB
      exact ⟨hlock, hmutex, hobsA, hobsB, hunused, hused⟩
    | false =>
      have hB : lockedB pcB = false := by
        rw [hl] at hlock
        simpa [lockedB] using (Bool.or_eq_false_iff.mp hlock.symm).2
      have ht : tstep e sh .ready =
          ({ sh with lockHeld := true }, .locked sh.keyStatus) := by
        simp [tstep, hl]
      rw [ht]
      show PairInv { sh with lockHeld := true } (.locked sh.keyStatus) pcB
      refine ⟨by simp [lockedB], ?_, ?_, hobsB, ?_, ?_⟩
      · rw [hB]
        simp [lockedB]
      · intro o ho
        injection ho with ho'
        exact ho'.symm
      · intro hu
        exact ⟨rfl, (hunused hu).2⟩
      · intro hu
        simpa [activatedB] using hused hu
  | locked o =>
    have hstat : o = sh.keyStatus := hobsA o rfl
    have hB : lockedB pcB = false := by
      cases hc : lockedB pcB with
      | false => rfl
      | true => exact absurd ⟨rfl, hc⟩ hmutex
    cases ho : o with
    | used =>
      have hksu : sh.keyStatus = .used := hstat.symm.trans ho
      have ht : tstep e sh (.locked .used) =
          ({ sh with lockHeld := false }, .done .alreadyUsed) := by
        simp [tstep]
      rw [ht]
      show PairInv { sh with lockHeld := false } (.done .alreadyUsed) pcB
      refine ⟨?_, by simp [lockedB], ?_, hobsB, ?_, ?_⟩
      · rw [hB]
        simp [lockedB]
      · intro o' ho'
        exact ThreadPC.noConfusion ho'
      · intro hu
        rw [hksu] at hu
        exact KeyStatus.noConfusion hu
      · intro _
        have h6 := hused hksu
        rw [ho] at h6
        simpa [activatedB] using h6
    | unused =>
      have hksu : sh.keyStatus = .unused := hstat.symm.trans ho
      have hBact : activatedB pcB = false :=
        activatedB_eq_false_of_doneB (hunused hksu).2
      have ht : tstep e sh (.locked .unused) =
          (⟨.used, some e, false⟩, .done .activated) := by
        simp [tstep]
      rw [ht]
      show PairInv ⟨.used, some e, false⟩ (.done .activated) pcB
      refine ⟨?_, by simp [lockedB], ?_, ?_, ?_, ?_⟩
      · rw [hB]
        simp [lockedB]
      · intro o' ho'
        exact ThreadPC.noConfusion ho'
      · intro o' ho'
        exact absurd ho' (not_locked_of_lockedB_false hB o')
      · intro hu
        exact KeyStatus.noConfusion hu
      · intro _
        rw [hBact]
        simp [activatedB]
  | done r =>
    show PairInv sh (.done r) pcB
    exact ⟨hlock, hmutex, hobsA, hobsB, hunused, hused⟩

def RaceInv (s : RaceState) : Prop := PairInv s.shared s.pc1 s.pc2

theorem raceInv_init : RaceInv raceInit := by
  refine ⟨rfl, by simp [raceInit, lockedB], ?_, ?_, by simp [raceInit, doneB], ?_⟩
  · intro o h
    simp [raceInit] at h
  · intro o h
    simp [raceInit] at h
  · intro h
    simp [raceInit] at h

theorem raceInv_step (e1 e2 : String) (s : RaceState) (tid : Bool)
    (h : RaceInv s) : RaceInv (raceStep e1 e2 s tid) := by
  cases tid with
  | true => exact PairInv.step e1 h
  | false => exact (PairInv.step e2 h.swap).swap

theorem raceInv_run (e1 e2 : String) (sched : List Bool) (s : RaceState)
    (h : RaceInv s) : RaceInv (raceRun e1 e2 s sched) := by
  induction sched generalizing s with
  | nil => exact h
  | cons tid rest ih => exact ih _ (raceInv_step e1 e2 s tid h)

/-! ## Rate limiter lemmas -/

/-- The allow decision of one check as a function of the looked-up entry. -/
def rlAllowPure : Option RLEntry → Int → Bool
  | none, _ => true
  | some e, t =>
    if t - e.start > RATE_LIMIT_WINDOW_SECONDS then true
    else decide (e.count < RATE_LIMIT_MAX_REQUESTS)

theorem rl_core_allowed (s : RLStore) (id : String) (t : Int) :
    (rl_core s id t).1 = rlAllowPure (tfind? s id) t := by
  cases hfind : tfind? s id with
  | none => simp [rl_core, rlAllowPure, hfind]
  | some e =>
    by_cases helap : t - e.start > RATE_LIMIT_WINDOW_SECONDS
    · simp [rl_core, rlAllowPure, hfind, helap]
    · by_cases hc : e.count ≥ RATE_LIMIT_MAX_REQUESTS
      · simp [rl_core, rlAllowPure, hfind, helap, hc, Nat.not_lt.mpr hc]
      · simp [rl_core, rlAllowPure, hfind, helap, hc, Nat.lt_of_not_le hc]

theorem nodup_map_fst_filter {V : Type} (s : List (String × V))
    (p : String × V → Bool) (h : (s.map Prod.fst).Nodup) :
    ((s.filter p).map Prod.fst).Nodup :=
  List.Nodup.sublist (List.Sublist.map Prod.fst (List.filter_sublist s)) h

/-- The allow/deny answer of a full check only depends on the entry found
    for the identifier, compaction included. -/
theorem check_rate_limit_allowed (s : RLStore) (id : String) (t : Int)
    (hnd : (s.map Prod.fst).Nodup) :
    (check_rate_limit s id t).1 = rlAllowPure (tfind? s id) t := by
  unfold check_rate_limit
  by_cases hlen : s.length > 10000
  · rw [if_pos hlen, rl_core_allowed]
    cases hfind : tfind? s id with
    | none =>
      rw [show tfind? (rlCompact s t) id = none from
        tfind?_filter_none s id _ hfind]
    | some e =>
      by_cases hkeep :
          (!decide (e.start < t - RATE_LIMIT_WINDOW_SECONDS)) = true
      · rw [show tfind? (rlCompact s t) id = some e from
          tfind?_filter_keep s id e _ hfind hkeep]
      · have hdrop :
            (!decide (e.start < t - RATE_LIMIT_WINDOW_SECONDS)) = false :=
          Bool.eq_false_iff.mpr hkeep
        rw [show tfind? (rlCompact s t) id = none from
          tfind?_filter_drop s id e _ hnd hfind hdrop]
        have hst : e.start < t - RATE_LIMIT_WINDOW_SECONDS := by
          simpa using hdrop
        have helap : t - e.start > RATE_LIMIT_WINDOW_SECONDS := by omega
        simp [rlAllowPure, helap]
  · rw [if_neg hlen, rl_core_allowed]

/-- The identifier's entry after an allowed reset: count 1, window at now. -/
theorem check_rate_limit_reset (s : RLStore) (id : String) (t : Int)
    (hnd : (s.map Prod.fst).Nodup)
    (h : tfind? s id = none ∨
      ∃ e, tfind? s id = some e ∧ t - e.start > RATE_LIMIT_WINDOW_SECONDS) :
    (check_rate_limit s id t).1 = true ∧
    tfind? (check_rate_limit s id t).2 id = some ⟨1, t⟩ := by
  unfold check_rate_limit
  set s' := if s.length > 10000 then rlCompact s t else s with hs'
  have hfind' : tfind? s' id = none ∨
      ∃ e, tfind? s' id = some e ∧ t - e.start > RATE_LIMIT_WINDOW_SECONDS := by
    rw [hs']
    by_cases hlen : s.length > 10000
    · rw [if_pos hlen]
      rcases h with hnone | ⟨e, hfind, helap⟩
      · exact Or.inl (tfind?_filter_none s id _ hnone)
      · by_cases hkeep :
            (!decide (e.start < t - RATE_LIMIT_WINDOW_SECONDS)) = true
        · exact Or.inr ⟨e, tfind?_filter_keep s id e _ hfind hkeep, helap⟩
        · exact Or.inl (tfind?_filter_drop s id e _ hnd hfind
            (Bool.eq_false_iff.mpr hkeep))
    · rw [if_neg hlen]
      exact h
  rcases hfind' with hnone | ⟨e, hfind, helap⟩
  · simp [rl_core, hnone, tfind?_tset_self]
  · simp [rl_core, hfind, helap, tfind?_tset_self]

/-- Splitting a run of checks into two stages. -/
theorem iterate_checks_add (m n : Nat) (s : RLStore) (id : String) (t : Int) :
    iterate_checks (m + n) s id t =
      ((iterate_checks m s id t).1 ++
         (iterate_checks n (iterate_checks m s id t).2 id t).1,
       (iterate_checks n (iterate_checks m s id t).2 id t).2) := by
  induction m generalizing s with
  | zero => simp [iterate_checks]
  | succ m ih =>
    have hadd : m + 1 + n = (m + n) + 1 := by omega
    rw [hadd]
    simp only [iterate_checks]
    rw [ih]
    simp

/-- Repeated checks from one fresh entry count up one by one and all pass
    while below the limit. -/
theorem iterate_checks_single (id : String) (t : Int) :
    ∀ (n c : Nat), 1 ≤ c → c + n ≤ RATE_LIMIT_MAX_REQUESTS →
    iterate_checks n [(id, ⟨c, t⟩)] id t =
      (List.replicate n true, [(id, ⟨c + n, t⟩)]) := by
  intro n
  induction n with
  | zero =>
    intro c h1 h2
    simp [iterate_checks]
  | succ n ih =>
    intro c h1 h2
    have hc : ¬ (c ≥ RATE_LIMIT_MAX_REQUESTS) := by
      simp only [RATE_LIMIT_MAX_REQUESTS] at h2 ⊢
      omega
    have hstep : check_rate_limit [(id, ⟨c, t⟩)] id t =
        (true, [(id, ⟨c + 1, t⟩)]) := by
      simp [check_rate_limit, rl_core, tfind?, tset, hc,
        RATE_LIMIT_WINDOW_SECONDS]
    have hrec := ih (c + 1) (by omega) (by omega)
    have hsum : c + 1 + n = c + (n + 1) := by omega
    simp only [iterate_checks, hstep, hrec, hsum, List.replicate_succ]

/-! ## Claim theorems -/

/-- C1: for one existing unused license key, two concurrent redemption
    attempts that both complete are linearized by the row lock: under every
    schedule, exactly one observes activation and the other observes
    already-used, even when both passed the earlier unlocked read. -/
theorem race_exactly_one_activation (e1 e2 : String) (sched : List Bool)
    (r1 r2 : RedeemResult)
    (h1 : (raceRun e1 e2 raceInit sched).pc1 = .done r1)
    (h2 : (raceRun e1 e2 raceInit sched).pc2 = .done r2) :
    (r1 = .activated ∧ r2 = .alreadyUsed) ∨
    (r1 = .alreadyUsed ∧ r2 = .activated) := by
  have hinv : PairInv (raceRun e1 e2 raceInit sched).shared
      (raceRun e1 e2 raceInit sched).pc1
      (raceRun e1 e2 raceInit sched).pc2 :=
    raceInv_run e1 e2 sched raceInit raceInv_init
  obtain ⟨_, _, _, _, hunused, hused⟩ := hinv
  cases hks : (raceRun e1 e2 raceInit sched).shared.keyStatus with
  | unused =>
    have hd := (hunused hks).1
    rw [h1] at hd
    simp [doneB] at hd
  | used =>
    have hx := hused hks
    rw [h1, h2] at hx
    cases r1 with
    | activated =>
      cases r2 with
      | activated => simp [activatedB] at hx
      | alreadyUsed => exact Or.inl ⟨rfl, rfl⟩
    | alreadyUsed =>
      cases r2 with
      | activated => exact Or.inr ⟨rfl, rfl⟩
      | alreadyUsed => simp [activatedB] at hx

/-- Witness for C1: a schedule in which both threads pass the unlocked read
    before either locks; thread 1 activates, thread 2 sees already-used. -/
theorem race_exactly_one_activation_witness :
    (RedeemResult.activated = RedeemResult.activated ∧
      RedeemResult.alreadyUsed = RedeemResult.alreadyUsed) ∨
    (RedeemResult.activated = RedeemResult.alreadyUsed ∧
      RedeemResult.alreadyUsed = RedeemResult.activated) :=
  race_exactly_one_activation "u1@x.com" "u2@x.com"
    [true, false, true, true, false, false]
    .activated .alreadyUsed (by decide) (by decide)

/-- C4 counterexample: with the store address present but the admin secret
    absent, startup succeeds with a generated temporary token instead of
    failing, so a missing admin secret is not fatal. -/
theorem missing_admin_token_not_fatal :
    load_config (some "postgresql://db.example/licenses") none "generated0token" =
      .ok ⟨"postgresql://db.example/licenses", "generated0token"⟩ := by
  rfl

/-- C4 (amended): a missing or empty store address is fatal at startup,
    while a missing admin secret is not fatal: the service starts with a
    freshly generated temporary admin token. -/
theorem config_fatal_only_db_url (adminEnv : Option String) (g u : String)
    (hu : u ≠ "") :
    load_config none adminEnv g =
      .error "DATABASE_URL environment variable is required" ∧
    load_config (some "") adminEnv g =
      .error "DATABASE_URL environment variable is required" ∧
    ∃ c, load_config (some u) none g = .ok c ∧ c.adminToken = g := by
  refine ⟨rfl, rfl, ⟨⟨fix_postgres u, g⟩, ?_, rfl⟩⟩
  simp [load_config, hu]

/-- Witness for C4 (amended). -/
theorem config_fatal_only_db_url_witness :
    ∃ c, load_config (some "postgres://host/db") none "g0" = .ok c ∧
      c.adminToken = "g0" :=
  (config_fatal_only_db_url none "g0" "postgres://host/db" (by decide)).2.2

/-- C9: fixed-window rate limiting: a missing or elapsed counter is reset to
    count 1 and the call allowed; from a fresh store, 21 calls by one
    address inside one window see the first 20 allowed and the 21st denied
    with the limit at 20. -/
theorem rate_limit_fixed_window (s : RLStore) (id : String) (t : Int)
    (hnd : (s.map Prod.fst).Nodup) :
    (tfind? s id = none →
      (check_rate_limit s id t).1 = true ∧
      tfind? (check_rate_limit s id t).2 id = some ⟨1, t⟩) ∧
    (∀ e : RLEntry, tfind? s id = some e →
      t - e.start > RATE_LIMIT_WINDOW_SECONDS →
      (check_rate_limit s id t).1 = true ∧
      tfind? (check_rate_limit s id t).2 id = some ⟨1, t⟩) ∧
    (iterate_checks 21 [] id t).1 = List.replicate 20 true ++ [false] := by
  refine ⟨?_, ?_, ?_⟩
  · intro hnone
    exact check_rate_limit_reset s id t hnd (Or.inl hnone)
  · intro e hfind helap
    exact check_rate_limit_reset s id t hnd (Or.inr ⟨e, hfind, helap⟩)
  · have h1 : iterate_checks 1 [] id t = ([true], [(id, ⟨1, t⟩)]) := by
      simp [iterate_checks, check_rate_limit, rl_core, tfind?, tset]
    have h2 : iterate_checks 19 [(id, ⟨1, t⟩)] id t =
        (List.replicate 19 true, [(id, ⟨20, t⟩)]) := by
      simpa using iterate_checks_single id t 19 1 (by omega)
        (by simp [RATE_LIMIT_MAX_REQUESTS])
    have h3 : iterate_checks 1 [(id, ⟨20, t⟩)] id t =
        ([false], [(id, ⟨20, t⟩)]) := by
      simp [iterate_checks, check_rate_limit, rl_core, tfind?,
        RATE_LIMIT_WINDOW_SECONDS, RATE_LIMIT_MAX_REQUESTS]
    have h20 : iterate_checks (1 + 19) [] id t =
        (List.replicate 20 true, [(id, ⟨20, t⟩)]) := by
      rw [iterate_checks_add, h1]
      show ([true] ++ (iterate_checks 19 [(id, ⟨1, t⟩)] id t).1,
        (iterate_checks 19 [(id, ⟨1, t⟩)] id t).2) = _
      rw [h2]
      rfl
    have h21 : (21 : Nat) = (1 + 19) + 1 := by norm_num
    rw [h21, iterate_checks_add, h20]
    show List.replicate 20 true ++
      (iterate_checks 1 [(id, ⟨20, t⟩)] id t).1 = _
    rw [h3]

/-- Witness for C9. -/
theorem rate_limit_fixed_window_witness :
    (iterate_checks 21 [] "192.0.2.7" 0).1 =
      List.replicate 20 true ++ [false] :=
  (rate_limit_fixed_window [] "192.0.2.7" 0 (by simp)).2.2

/-- C10: the size-triggered compaction removes only counters whose window
    start lies more than the window length in the past, and for any later
    check the allow/deny answer for every identifier is the same whether or
    not compaction ran. -/
theorem rate_limit_compaction_transparent (s : RLStore) (t0 t : Int)
    (id : String) (hnd : (s.map Prod.fst).Nodup) (hmono : t0 ≤ t) :
    (∀ e : RLEntry, tfind? s id = some e →
      tfind? (rlCompact s t0) id = none →
      t0 - e.start > RATE_LIMIT_WINDOW_SECONDS) ∧
    (check_rate_limit (rlCompact s t0) id t).1 =
      (check_rate_limit s id t).1 := by
  constructor
  · intro e hfind hdrop
    by_contra hcon
    have hkeep : (!decide (e.start < t0 - RATE_LIMIT_WINDOW_SECONDS)) = true := by
      have : ¬ (e.start < t0 - RATE_LIMIT_WINDOW_SECONDS) := by omega
      simpa using this
    have hsome : tfind? (rlCompact s t0) id = some e :=
      tfind?_filter_keep s id e _ hfind hkeep
    rw [hsome] at hdrop
    cases hdrop
  · have hnd2 : ((rlCompact s t0).map Prod.fst).Nodup :=
      nodup_map_fst_filter s _ hnd
    rw [check_rate_limit_allowed _ _ _ hnd2, check_rate_limit_allowed _ _ _ hnd]
    cases hfind : tfind? s id with
    | none =>
      rw [show tfind? (rlCompact s t0) id = none from
        tfind?_filter_none s id _ hfind]
    | some e =>
      by_cases hkeep :
          (!decide (e.start < t0 - RATE_LIMIT_WINDOW_SECONDS)) = true
      · rw [show tfind? (rlCompact s t0) id = some e from
          tfind?_filter_keep s id e _ hfind hkeep]
      · rw [show tfind? (rlCompact s t0) id = none from
          tfind?_filter_drop s id e _ hnd hfind (Bool.eq_false_iff.mpr hkeep)]
        have hst : e.start < t0 - RATE_LIMIT_WINDOW_SECONDS := by
          simpa using Bool.eq_false_iff.mpr hkeep
        have helap : t - e.start > RATE_LIMIT_WINDOW_SECONDS := by omega
        simp [rlAllowPure, helap]

/-- Witness for C10. -/
theorem rate_limit_compaction_transparent_witness :
    (check_rate_limit (rlCompact [("a", ⟨3, 0⟩)] 100) "a" 100).1 =
      (check_rate_limit [("a", ⟨3, 0⟩)] "a" 100).1 :=
  (rate_limit_compaction_transparent [("a", ⟨3, 0⟩)] 100 100 "a"
    (by simp) (by omega)).2

/-! ## Authorize: shared reduction to the session phase -/

/-- When the rate limiter allows, the body parses, the email validates and
    the whitelist is off, authorize reduces to its session phase. -/
theorem authorize_main (cfg : Config) (st : ServerState) (body : ReqBody)
    (ip email : String) (now : Int)
    (hrl : (check_rate_limit st.rl ip now).1 = true)
    (hemail : normalize_email (body.email.getD "") = email)
    (hne : email ≠ "")
    (hval : validate_email_format email = true)
    (hwl : cfg.enableEmailWhitelist = false) :
    authorize cfg st ⟨some body, ip⟩ now =
      authorize_session_phase
        { st with rl := (check_rate_limit st.rl ip now).2 }
        email (strTrim (body.key.getD "")) ip now := by
  simp [authorize, hrl, hemail, hne, hval, hwl]

/-- Sample configuration with the whitelist feature off. -/
def cfgOff : Config := ⟨false⟩

/-- Sample state with one live session for the sample identity. -/
def stSess : ServerState :=
  ⟨⟨[], [("a@b.co", ⟨100, 0, none⟩)], [], []⟩, []⟩

/-- C7: when authorize finds an unexpired session for the identity, it
    grants with the stored expiry unchanged, refreshes only the activity
    timestamp, appends one resumption audit event, and leaves the license
    table entirely untouched even if a key was supplied. -/
theorem session_resume_frame (cfg : Config) (st : ServerState) (body : ReqBody)
    (ip email : String) (now : Int) (sess : SessionRec)
    (hrl : (check_rate_limit st.rl ip now).1 = true)
    (hemail : normalize_email (body.email.getD "") = email)
    (hne : email ≠ "")
    (hval : validate_email_format email = true)
    (hwl : cfg.enableEmailWhitelist = false)
    (hsess : tfind? st.db.sessions email = some sess)
    (hexp : now < sess.expiresAt) :
    (authorize cfg st ⟨some body, ip⟩ now).resp.authorized = true ∧
    (authorize cfg st ⟨some body, ip⟩ now).resp.status = 200 ∧
    (authorize cfg st ⟨some body, ip⟩ now).resp.expires_at =
      some sess.expiresAt ∧
    (authorize cfg st ⟨some body, ip⟩ now).branch = .sessionResumed ∧
    (authorize cfg st ⟨some body, ip⟩ now).state.db.licenses =
      st.db.licenses ∧
    (authorize cfg st ⟨some body, ip⟩ now).state.db.sessions =
      tset st.db.sessions email { sess with lastActivity := now } ∧
    (authorize cfg st ⟨some body, ip⟩ now).state.db.audit =
      ⟨"SESSION_RESUMED", some email, ip, none⟩ :: st.db.audit := by
  rw [authorize_main cfg st body ip email now hrl hemail hne hval hwl]
  have hs2 : tfind?
      ({ st with rl := (check_rate_limit st.rl ip now).2 } : ServerState).db.sessions
      email = some sess := hsess
  unfold authorize_session_phase
  simp only [hs2]
  rw [if_pos hexp]
  exact ⟨rfl, rfl, rfl, rfl, rfl, rfl, rfl⟩

/-- Witness for C7. -/
theorem session_resume_frame_witness :
    (authorize cfgOff stSess ⟨some ⟨some "a@b.co", none⟩, "1.2.3.4"⟩ 5).resp.authorized
      = true :=
  (session_resume_frame cfgOff stSess ⟨some "a@b.co", none⟩ "1.2.3.4" "a@b.co"
    5 ⟨100, 0, none⟩ (by decide) (by decide) (by decide) (by decide) rfl
    (by decide) (by decide)).1

/-- C8: when the identity's session has expired and no key is supplied, the
    session row is deleted, one expiry audit event is written, and the call
    is rejected with the key-required 401, never a stale grant. -/
theorem expired_session_key_required (cfg : Config) (st : ServerState)
    (body : ReqBody) (ip email : String) (now : Int) (sess : SessionRec)
    (hrl : (check_rate_limit st.rl ip now).1 = true)
    (hemail : normalize_email (body.email.getD "") = email)
    (hne : email ≠ "")
    (hval : validate_email_format email = true)
    (hwl : cfg.enableEmailWhitelist = false)
    (hkey : body.key = none)
    (hsess : tfind? st.db.sessions email = some sess)
    (hexp : sess.expiresAt ≤ now) :
    (authorize cfg st ⟨some body, ip⟩ now).resp.status = 401 ∧
    (authorize cfg st ⟨some body, ip⟩ now).resp.authorized = false ∧
    (authorize cfg st ⟨some body, ip⟩ now).resp.error =
      some "Access key required for new session" ∧
    (authorize cfg st ⟨some body, ip⟩ now).branch = .keyRequired ∧
    tfind? (authorize cfg st ⟨some body, ip⟩ now).state.db.sessions email =
      none ∧
    (authorize cfg st ⟨some body, ip⟩ now).state.db.audit =
      ⟨"SESSION_EXPIRED", some email, ip, none⟩ :: st.db.audit := by
  rw [authorize_main cfg st body ip email now hrl hemail hne hval hwl]
  have hs2 : tfind?
      ({ st with rl := (check_rate_limit st.rl ip now).2 } : ServerState).db.sessions
      email = some sess := hsess
  unfold authorize_session_phase
  simp only [hs2, hkey]
  rw [if_neg (not_lt.mpr hexp)]
  have hk0 : strTrim (Option.getD (none : Option String) "") = "" := by decide
  rw [hk0]
  unfold authorize_key_phase
  rw [if_pos rfl]
  refine ⟨rfl, rfl, rfl, rfl, ?_, rfl⟩
  exact tfind?_tdel_self st.db.sessions email

/-- Witness for C8. -/
theorem expired_session_key_required_witness :
    (authorize cfgOff stSess ⟨some ⟨some "a@b.co", none⟩, "1.2.3.4"⟩ 200).resp.status
      = 401 :=
  (expired_session_key_required cfgOff stSess ⟨some "a@b.co", none⟩ "1.2.3.4"
    "a@b.co" 200 ⟨100, 0, none⟩ (by decide) (by decide) (by decide) (by decide)
    rfl rfl (by decide) (by decide)).1

/-! ## Key-phase outcome lemmas -/

/-- Without a session row the session phase is the key phase. -/
theorem authorize_no_session (st : ServerState) (email key ip : String)
    (now : Int) (hsess : tfind? st.db.sessions email = none) :
    authorize_session_phase st email key ip now =
      authorize_key_phase st email key ip now := by
  unfold authorize_session_phase
  simp only [hsess]

theorem key_phase_invalid_format (st : ServerState) (email key ip : String)
    (now : Int) (hne : key ≠ "") (hlen : key.length ≠ 48) :
    authorize_key_phase st email key ip now =
      ⟨⟨403, false, none, some "Invalid key format", none⟩, .invalidKeyFormat,
        { st with db := (log_audit_event st.db "INVALID_KEY_FORMAT"
            (some email) ip none) }⟩ := by
  unfold authorize_key_phase
  rw [if_neg hne, if_pos hlen]

theorem key_phase_not_found (st : ServerState) (email key ip : String)
    (now : Int) (hne : key ≠ "") (hlen : key.length = 48)
    (habs : tfind? st.db.licenses key = none) :
    authorize_key_phase st email key ip now =
      ⟨⟨403, false, none, some "Invalid access key", none⟩, .keyNotFound,
        { st with db := (log_audit_event st.db "KEY_NOT_FOUND"
            (some email) ip none) }⟩ := by
  unfold authorize_key_phase
  rw [if_neg hne, if_neg (not_not_intro hlen)]
  simp only [habs]

theorem key_phase_activated (st : ServerState) (email key ip : String)
    (now : Int) (rec : LicenseRec) (hne : key ≠ "")
    (hlen : key.length = 48)
    (hfind : tfind? st.db.licenses key = some rec)
    (hunused : rec.status = .unused) :
    (authorize_key_phase st email key ip now).resp.authorized = true ∧
    (authorize_key_phase st email key ip now).resp.status = 200 ∧
    (authorize_key_phase st email key ip now).resp.expires_at =
      some (now + 3600 * rec.durationHours) ∧
    (authorize_key_phase st email key ip now).branch = .keyActivated ∧
    (authorize_key_phase st email key ip now).state.db.licenses =
      tset st.db.licenses key
        { rec with status := .used, usedByEmail := some email, usedAt := some now } ∧
    (authorize_key_phase st email key ip now).state.db.sessions =
      tset st.db.sessions email
        ⟨now + 3600 * rec.durationHours, now, some key⟩ := by
  have hnu : ¬ (rec.status = .used) := by
    rw [hunused]
    decide
  unfold authorize_key_phase
  rw [if_neg hne, if_neg (not_not_intro hlen)]
  simp only [hfind]
  rw [if_neg hnu]
  exact ⟨rfl, rfl, rfl, rfl, rfl, rfl⟩

/-! ## C5 and C6 -/

/-- Sample empty state. -/
def stEmpty : ServerState := ⟨⟨[], [], [], []⟩, []⟩

/-- A 47-character key (one short of the generated length). -/
def key47 : String := "aaaaaaaaaaaaaaaaaaaaaaaaaaaaaaaaaaaaaaaaaaaaaaa"

/-- A well-formed-length 48-character key absent from the store. -/
def key48 : String := "aaaaaaaaaaaaaaaaaaaaaaaaaaaaaaaaaaaaaaaaaaaaaaaa"

/-- C5 counterexample: two calls differing only in the key, one of wrong
    length and one well-formed but absent, both rejected 403 but with
    different error messages, so the denial does reveal malformed-length
    versus nonexistent. -/
theorem malformed_vs_missing_key_distinguishable :
    (authorize cfgOff stEmpty ⟨some ⟨some "a@b.co", some key47⟩, "9.9.9.9"⟩ 0).resp.status = 403 ∧
    (authorize cfgOff stEmpty ⟨some ⟨some "a@b.co", some key48⟩, "9.9.9.9"⟩ 0).resp.status = 403 ∧
    (authorize cfgOff stEmpty ⟨some ⟨some "a@b.co", some key47⟩, "9.9.9.9"⟩ 0).resp.error =
      some "Invalid key format" ∧
    (authorize cfgOff stEmpty ⟨some ⟨some "a@b.co", some key48⟩, "9.9.9.9"⟩ 0).resp.error =
      some "Invalid access key" ∧
    (authorize cfgOff stEmpty ⟨some ⟨some "a@b.co", some key47⟩, "9.9.9.9"⟩ 0).resp.error ≠
      (authorize cfgOff stEmpty ⟨some ⟨some "a@b.co", some key48⟩, "9.9.9.9"⟩ 0).resp.error := by
  decide

/-- C5 (amended): a wrong-length key and a well-formed-length key absent
    from the store are rejected in the same class, 403 with authorized
    false, but the bodies carry different error strings, distinguishing the
    two cases. -/
theorem key_rejections_same_class (cfg : Config) (st : ServerState)
    (ip email k1 k2 : String) (now : Int)
    (hrl : (check_rate_limit st.rl ip now).1 = true)
    (hemail : normalize_email email = email)
    (hne : email ≠ "")
    (hval : validate_email_format email = true)
    (hwl : cfg.enableEmailWhitelist = false)
    (hsess : tfind? st.db.sessions email = none)
    (hk1t : strTrim k1 = k1) (hk1ne : k1 ≠ "") (hk1len : k1.length ≠ 48)
    (hk2t : strTrim k2 = k2) (hk2len : k2.length = 48)
    (hk2abs : tfind? st.db.licenses k2 = none) :
    (authorize cfg st ⟨some ⟨some email, some k1⟩, ip⟩ now).resp.status = 403 ∧
    (authorize cfg st ⟨some ⟨some email, some k2⟩, ip⟩ now).resp.status = 403 ∧
    (authorize cfg st ⟨some ⟨some email, some k1⟩, ip⟩ now).resp.authorized = false ∧
    (authorize cfg st ⟨some ⟨some email, some k2⟩, ip⟩ now).resp.authorized = false ∧
    (authorize cfg st ⟨some ⟨some email, some k1⟩, ip⟩ now).resp.error =
      some "Invalid key format" ∧
    (authorize cfg st ⟨some ⟨some email, some k2⟩, ip⟩ now).resp.error =
      some "Invalid access key" := by
  rw [authorize_main cfg st ⟨some email, some k1⟩ ip email now hrl hemail hne hval hwl,
    authorize_main cfg st ⟨some email, some k2⟩ ip email now hrl hemail hne hval hwl]
  have hsess' : tfind?
      ({ st with rl := (check_rate_limit st.rl ip now).2 } : ServerState).db.sessions
      email = none := hsess
  rw [authorize_no_session _ _ _ _ _ hsess', authorize_no_session _ _ _ _ _ hsess']
  have e1 : strTrim ((⟨some email, some k1⟩ : ReqBody).key.getD "") = k1 := hk1t
  have e2 : strTrim ((⟨some email, some k2⟩ : ReqBody).key.getD "") = k2 := hk2t
  rw [e1, e2]
  have hk2abs' : tfind?
      ({ st with rl := (check_rate_limit st.rl ip now).2 } : ServerState).db.licenses
      k2 = none := hk2abs
  rw [key_phase_invalid_format _ email k1 ip now hk1ne hk1len,
    key_phase_not_found _ email k2 ip now
      (by intro h; rw [h] at hk2len; exact absurd hk2len (by decide)) hk2len hk2abs']
  exact ⟨rfl, rfl, rfl, rfl, rfl, rfl⟩

/-- Witness for C5 (amended). -/
theorem key_rejections_same_class_witness :
    (authorize cfgOff stEmpty ⟨some ⟨some "a@b.co", some key47⟩, "9.9.9.9"⟩ 0).resp.status
      = 403 :=
  (key_rejections_same_class cfgOff stEmpty "9.9.9.9" "a@b.co" key47 key48 0
    (by decide) (by decide) (by decide) (by decide) rfl rfl
    (by decide) (by decide) (by decide) (by decide) (by decide) rfl).1

theorem create_key_ok (st : ServerState) (d : Int) (code ip : String)
    (hd : 1 ≤ d ∧ d ≤ 8760)
    (hfresh : tfind? st.db.licenses code = none) :
    (create_key st d code ip).1 = ⟨200, some code, some d, none⟩ ∧
    (create_key st d code ip).2.db.licenses =
      tset st.db.licenses code ⟨.unused, d, none, none⟩ ∧
    (create_key st d code ip).2.db.sessions = st.db.sessions ∧
    (create_key st d code ip).2.rl = st.rl := by
  unfold create_key
  rw [if_neg (not_not_intro hd)]
  simp only [hfresh]
  refine ⟨?_, ?_, ?_, ?_⟩ <;> trivial

/-- C6: creating a key of duration d and immediately authorizing with the
    returned code grants access, the session expiry is exactly now plus d
    hours, and the duration is copied unchanged from the key row into the
    session and kept on the used key row. -/
theorem create_then_authorize_round_trip (cfg : Config) (st : ServerState)
    (ip ip2 email code : String) (d now : Int)
    (hd : 1 ≤ d ∧ d ≤ 8760)
    (hfresh : tfind? st.db.licenses code = none)
    (hlen : code.length = 48)
    (hcode : strTrim code = code)
    (hemail : normalize_email email = email)
    (hne : email ≠ "")
    (hval : validate_email_format email = true)
    (hwl : cfg.enableEmailWhitelist = false)
    (hsess : tfind? st.db.sessions email = none)
    (hrl : (check_rate_limit st.rl ip2 now).1 = true) :
    (create_key st d code ip).1.key = some code ∧
    (create_key st d code ip).1.duration = some d ∧
    (authorize cfg (create_key st d code ip).2
      ⟨some ⟨some email, some code⟩, ip2⟩ now).resp.authorized = true ∧
    (authorize cfg (create_key st d code ip).2
      ⟨some ⟨some email, some code⟩, ip2⟩ now).resp.status = 200 ∧
    (authorize cfg (create_key st d code ip).2
      ⟨some ⟨some email, some code⟩, ip2⟩ now).resp.expires_at =
        some (now + 3600 * d) ∧
    (authorize cfg (create_key st d code ip).2
      ⟨some ⟨some email, some code⟩, ip2⟩ now).branch = .keyActivated ∧
    tfind? (authorize cfg (create_key st d code ip).2
      ⟨some ⟨some email, some code⟩, ip2⟩ now).state.db.sessions email =
        some ⟨now + 3600 * d, now, some code⟩ ∧
    tfind? (authorize cfg (create_key st d code ip).2
      ⟨some ⟨some email, some code⟩, ip2⟩ now).state.db.licenses code =
        some ⟨.used, d, some email, some now⟩ := by
  obtain ⟨hresp, hlic, hsess1, hrl1⟩ := create_key_ok st d code ip hd hfresh
  have hne0 : code ≠ "" := by
    intro h
    rw [h] at hlen
    exact absurd hlen (by decide)
  have hrl2 : (check_rate_limit (create_key st d code ip).2.rl ip2 now).1 = true := by
    rw [hrl1]
    exact hrl
  rw [authorize_main cfg (create_key st d code ip).2 ⟨some email, some code⟩
    ip2 email now hrl2 hemail hne hval hwl]
  have hsess' : tfind?
      ({ (create_key st d code ip).2 with
        rl := (check_rate_limit (create_key st d code ip).2.rl ip2 now).2 } :
        ServerState).db.sessions email = none := by
    show tfind? (create_key st d code ip).2.db.sessions email = none
    rw [hsess1]
    exact hsess
  rw [authorize_no_session _ _ _ _ _ hsess']
  have ekey : strTrim ((⟨some email, some code⟩ : ReqBody).key.getD "") = code :=
    hcode
  rw [ekey]
  have hfind : tfind?
      ({ (create_key st d code ip).2 with
        rl := (check_rate_limit (create_key st d code ip).2.rl ip2 now).2 } :
        ServerState).db.licenses code = some ⟨.unused, d, none, none⟩ := by
    show tfind? (create_key st d code ip).2.db.licenses code = _
    rw [hlic]
    exact tfind?_tset_self st.db.licenses code ⟨.unused, d, none, none⟩
  obtain ⟨a1, a2, a3, a4, a5, a6⟩ := key_phase_activated _ email code ip2 now
    ⟨.unused, d, none, none⟩ hne0 hlen hfind rfl
  refine ⟨by rw [hresp], by rw [hresp], a1, a2, a3, a4, ?_, ?_⟩
  · rw [a6]
    exact tfind?_tset_self _ email _
  · rw [a5]
    exact tfind?_tset_self _ code _

/-- Witness for C6. -/
theorem create_then_authorize_round_trip_witness :
    (authorize cfgOff (create_key stEmpty 24 key48 "8.8.8.8").2
      ⟨some ⟨some "a@b.co", some key48⟩, "9.9.9.9"⟩ 0).resp.expires_at =
      some (0 + 3600 * 24) :=
  (create_then_authorize_round_trip cfgOff stEmpty "8.8.8.8" "9.9.9.9"
    "a@b.co" key48 24 0 (by norm_num) rfl (by decide) (by decide) (by decide)
    (by decide) (by decide) rfl rfl (by decide)).2.2.2.2.1

/-! ## C2: the key-status invariant across all operations -/

theorem authorize_key_phase_licenses (st : ServerState)
    (email key ip : String) (now : Int) (k : String) (rec : LicenseRec)
    (h : tfind? st.db.licenses k = some rec) :
    tfind? (authorize_key_phase st email key ip now).state.db.licenses k =
      some rec ∨
    (rec.status = .unused ∧
      tfind? (authorize_key_phase st email key ip now).state.db.licenses k =
        some ⟨.used, rec.durationHours, some email, some now⟩) := by
  unfold authorize_key_phase
  by_cases h0 : key = ""
  · rw [if_pos h0]
    exact Or.inl h
  · rw [if_neg h0]
    by_cases h1 : key.length ≠ 48
    · rw [if_pos h1]
      exact Or.inl h
    · rw [if_neg h1]
      cases hfind : tfind? st.db.licenses key with
      | none =>
        simp only [hfind]
        exact Or.inl h
      | some rec0 =>
        simp only [hfind]
        by_cases h2 : rec0.status = .used
        · rw [if_pos h2]
          exact Or.inl h
        · rw [if_neg h2]
          by_cases hk : k = key
          · subst hk
            rw [h] at hfind
            injection hfind with he
            subst he
            right
            refine ⟨?_, ?_⟩
            · cases hs : rec.status with
              | unused => rfl
              | used => exact absurd hs h2
            · show tfind? (tset st.db.licenses k
                { rec with status := .used, usedByEmail := some email, usedAt := some now })
                k = _
              rw [tfind?_tset_self]
          · left
            show tfind? (tset st.db.licenses key
              { rec0 with status := .used, usedByEmail := some email, usedAt := some now })
              k = some rec
            rw [tfind?_tset_ne _ key k _ hk]
            exact h

theorem authorize_session_phase_licenses (st : ServerState)
    (email key ip : String) (now : Int) (k : String) (rec : LicenseRec)
    (h : tfind? st.db.licenses k = some rec) :
    tfind? (authorize_session_phase st email key ip now).state.db.licenses k =
      some rec ∨
    (rec.status = .unused ∧
      tfind? (authorize_session_phase st email key ip now).state.db.licenses k =
        some ⟨.used, rec.durationHours, some email, some now⟩) := by
  unfold authorize_session_phase
  cases hsess : tfind? st.db.sessions email with
  | none =>
    simp only [hsess]
    exact authorize_key_phase_licenses st email key ip now k rec h
  | some sess =>
    simp only [hsess]
    by_cases hexp : now < sess.expiresAt
    · rw [if_pos hexp]
      exact Or.inl h
    · rw [if_neg hexp]
      exact authorize_key_phase_licenses _ email key ip now k rec h

theorem authorize_licenses (cfg : Config) (st : ServerState)
    (req : AuthRequest) (now : Int) (k : String) (rec : LicenseRec)
    (h : tfind? st.db.licenses k = some rec) :
    tfind? (authorize cfg st req now).state.db.licenses k = some rec ∨
    (rec.status = .unused ∧ ∃ e,
      tfind? (authorize cfg st req now).state.db.licenses k =
        some ⟨.used, rec.durationHours, some e, some now⟩) := by
  have hphase : ∀ (st' : ServerState) (email key : String),
      tfind? st'.db.licenses k = some rec →
      (tfind? (authorize_session_phase st' email key req.ip now).state.db.licenses k =
        some rec ∨
      (rec.status = .unused ∧ ∃ e,
        tfind? (authorize_session_phase st' email key req.ip now).state.db.licenses k =
          some ⟨.used, rec.durationHours, some e, some now⟩)) := by
    intro st' email key h'
    rcases authorize_session_phase_licenses st' email key req.ip now k rec h' with
      h1 | ⟨hst, h2⟩
    · exact Or.inl h1
    · exact Or.inr ⟨hst, email, h2⟩
  simp only [authorize]
  split
  · exact Or.inl h
  · split
    · exact Or.inl h
    · split
      · exact Or.inl h
      · split
        · exact Or.inl h
        · split
          · exact Or.inl h
          · exact hphase _ _ _ h

/-- C2: across every operation of the service, an existing license row is
    never deleted, a used row never changes again (status and redeemer
    frozen), only an authorize call ever mutates a row, and the only
    mutation is the one-shot unused-to-used transition that records a
    redeemer and keeps the duration. -/
theorem license_status_monotonic (cfg : Config) (st : ServerState)
    (ip : String) (now : Int) (op : Op) (k : String) (rec : LicenseRec)
    (h : tfind? st.db.licenses k = some rec) :
    ∃ rec', tfind? (applyOp cfg st ip now op).db.licenses k = some rec' ∧
      (rec.status = .used → rec' = rec) ∧
      (op.isAuthorize = false → rec' = rec) ∧
      (rec' ≠ rec → rec.status = .unused ∧ rec'.status = .used ∧
        rec'.usedByEmail ≠ none ∧ rec'.durationHours = rec.durationHours) := by
  cases op with
  | opCreateKey d code =>
    refine ⟨rec, ?_, fun _ => rfl, fun _ => rfl, fun hc => absurd rfl hc⟩
    show tfind? (create_key st d code ip).2.db.licenses k = some rec
    unfold create_key
    split
    · exact h
    · cases hfind : tfind? st.db.licenses code with
      | some r0 =>
        simp only [hfind]
        exact h
      | none =>
        simp only [hfind]
        have hne : k ≠ code := by
          intro he
          rw [he, hfind] at h
          cases h
        show tfind? (tset st.db.licenses code ⟨.unused, d, none, none⟩) k =
          some rec
        rw [tfind?_tset_ne _ code k _ hne]
        exact h
  | opAuthorize req =>
    rcases authorize_licenses cfg st req now k rec h with h1 | ⟨hst, e, h2⟩
    · exact ⟨rec, h1, fun _ => rfl, fun _ => rfl, fun hc => absurd rfl hc⟩
    · refine ⟨⟨.used, rec.durationHours, some e, some now⟩, h2, ?_, ?_, ?_⟩
      · intro hu
        rw [hst] at hu
        exact absurd hu (by decide)
      · intro hfalse
        exact absurd hfalse (by simp [Op.isAuthorize])
      · intro _
        exact ⟨hst, rfl, by simp, rfl⟩
  | opWhitelistAdd e =>
    refine ⟨rec, ?_, fun _ => rfl, fun _ => rfl, fun hc => absurd rfl hc⟩
    show tfind? (add_to_whitelist st e ip).2.db.licenses k = some rec
    simp only [add_to_whitelist]
    split
    · exact h
    · exact h
  | opWhitelistRemove e =>
    refine ⟨rec, ?_, fun _ => rfl, fun _ => rfl, fun hc => absurd rfl hc⟩
    show tfind? (remove_from_whitelist st e ip).2.db.licenses k = some rec
    simp only [remove_from_whitelist]
    split
    · exact h
    · exact h
  | opAdminCleanup =>
    exact ⟨rec, h, fun _ => rfl, fun _ => rfl, fun hc => absurd rfl hc⟩
  | opSweepExpired =>
    exact ⟨rec, h, fun _ => rfl, fun _ => rfl, fun hc => absurd rfl hc⟩
  | opGetStats =>
    exact ⟨rec, h, fun _ => rfl, fun _ => rfl, fun hc => absurd rfl hc⟩

/-- Witness for C2: a used key row survives an authorize call unchanged. -/
theorem license_status_monotonic_witness :
    ∃ rec', tfind? (applyOp cfgOff
      ⟨⟨[(key48, ⟨.used, 24, some "a@b.co", some 0⟩)], [], [], []⟩, []⟩
      "9.9.9.9" 50
      (.opAuthorize ⟨some ⟨some "b@c.de", some key48⟩, "9.9.9.9"⟩)).db.licenses
      key48 = some rec' ∧
      ((⟨.used, 24, some "a@b.co", some 0⟩ : LicenseRec).status = .used →
        rec' = ⟨.used, 24, some "a@b.co", some 0⟩) ∧
      ((Op.opAuthorize ⟨some ⟨some "b@c.de", some key48⟩, "9.9.9.9"⟩).isAuthorize
          = false → rec' = ⟨.used, 24, some "a@b.co", some 0⟩) ∧
      (rec' ≠ ⟨.used, 24, some "a@b.co", some 0⟩ →
        (⟨.used, 24, some "a@b.co", some 0⟩ : LicenseRec).status = .unused ∧
        rec'.status = .used ∧ rec'.usedByEmail ≠ none ∧
        rec'.durationHours =
          (⟨.used, 24, some "a@b.co", some 0⟩ : LicenseRec).durationHours) :=
  license_status_monotonic cfgOff
    ⟨⟨[(key48, ⟨.used, 24, some "a@b.co", some 0⟩)], [], [], []⟩, []⟩
    "9.9.9.9" 50 (.opAuthorize ⟨some ⟨some "b@c.de", some key48⟩, "9.9.9.9"⟩)
    key48 ⟨.used, 24, some "a@b.co", some 0⟩ (by decide)

/-! ## C3: audit events per terminal branch -/

/-- The audit tag the code writes on each terminal branch; none for the
    branches that write no audit event. -/
def branchTag : Branch → Option String
  | .rateLimited => some "RATE_LIMITED"
  | .noBody => none
  | .noEmail => none
  | .invalidEmailFormat => some "INVALID_EMAIL_FORMAT"
  | .notWhitelisted => some "EMAIL_NOT_WHITELISTED"
  | .sessionResumed => some "SESSION_RESUMED"
  | .keyRequired => none
  | .invalidKeyFormat => some "INVALID_KEY_FORMAT"
  | .keyNotFound => some "KEY_NOT_FOUND"
  | .keyAlreadyUsed => some "KEY_ALREADY_USED"
  | .keyActivated => some "KEY_ACTIVATED"

theorem audit_key_phase (st : ServerState) (email key ip : String)
    (now : Int) :
    ((authorize_key_phase st email key ip now).state.db.audit = st.db.audit ∧
      branchTag (authorize_key_phase st email key ip now).branch = none) ∨
    (∃ ev, (authorize_key_phase st email key ip now).state.db.audit =
        ev :: st.db.audit ∧
      branchTag (authorize_key_phase st email key ip now).branch =
        some ev.eventType ∧ ev.ipAddress = ip) := by
  unfold authorize_key_phase
  by_cases h0 : key = ""
  · rw [if_pos h0]
    exact Or.inl ⟨rfl, rfl⟩
  · rw [if_neg h0]
    by_cases h1 : key.length ≠ 48
    · rw [if_pos h1]
      exact Or.inr ⟨_, rfl, rfl, rfl⟩
    · rw [if_neg h1]
      cases hfind : tfind? st.db.licenses key with
      | none =>
        simp only [hfind]
        exact Or.inr ⟨_, rfl, rfl, rfl⟩
      | some rec =>
        simp only [hfind]
        by_cases h2 : rec.status = .used
        · rw [if_pos h2]
          exact Or.inr ⟨_, rfl, rfl, rfl⟩
        · rw [if_neg h2]
          exact Or.inr ⟨_, rfl, rfl, rfl⟩

theorem audit_session_phase (st : ServerState) (email key ip : String)
    (now : Int) :
    ((authorize_session_phase st email key ip now).state.db.audit =
        st.db.audit ∧
      branchTag (authorize_session_phase st email key ip now).branch = none) ∨
    (∃ em, (authorize_session_phase st email key ip now).state.db.audit =
        ⟨"SESSION_EXPIRED", some em, ip, none⟩ :: st.db.audit ∧
      branchTag (authorize_session_phase st email key ip now).branch = none) ∨
    (∃ ev, (authorize_session_phase st email key ip now).state.db.audit =
        ev :: st.db.audit ∧
      branchTag (authorize_session_phase st email key ip now).branch =
        some ev.eventType ∧ ev.ipAddress = ip) ∨
    (∃ ev em, (authorize_session_phase st email key ip now).state.db.audit =
        ev :: ⟨"SESSION_EXPIRED", some em, ip, none⟩ :: st.db.audit ∧
      branchTag (authorize_session_phase st email key ip now).branch =
        some ev.eventType ∧ ev.ipAddress = ip) := by
  unfold authorize_session_phase
  cases hsess : tfind? st.db.sessions email with
  | none =>
    simp only [hsess]
    rcases audit_key_phase st email key ip now with ⟨ha, hb⟩ | ⟨ev, ha, hb, hc⟩
    · exact Or.inl ⟨ha, hb⟩
    · exact Or.inr (Or.inr (Or.inl ⟨ev, ha, hb, hc⟩))
  | some sess =>
    simp only [hsess]
    by_cases hexp : now < sess.expiresAt
    · rw [if_pos hexp]
      exact Or.inr (Or.inr (Or.inl ⟨_, rfl, rfl, rfl⟩))
    · rw [if_neg hexp]
      rcases audit_key_phase
          { st with db := (log_audit_event
            { st.db with sessions := tdel st.db.sessions email }
            "SESSION_EXPIRED" (some email) ip none) }
          email key ip now with ⟨ha, hb⟩ | ⟨ev, ha, hb, hc⟩
      · exact Or.inr (Or.inl ⟨email, ha, hb⟩)
      · exact Or.inr (Or.inr (Or.inr ⟨ev, email, ha, hb, hc⟩))

theorem audit_authorize (cfg : Config) (st : ServerState) (req : AuthRequest)
    (now : Int) :
    ((authorize cfg st req now).state.db.audit = st.db.audit ∧
      branchTag (authorize cfg st req now).branch = none) ∨
    (∃ em, (authorize cfg st req now).state.db.audit =
        ⟨"SESSION_EXPIRED", some em, req.ip, none⟩ :: st.db.audit ∧
      branchTag (authorize cfg st req now).branch = none) ∨
    (∃ ev, (authorize cfg st req now).state.db.audit = ev :: st.db.audit ∧
      branchTag (authorize cfg st req now).branch = some ev.eventType ∧
      ev.ipAddress = req.ip) ∨
    (∃ ev em, (authorize cfg st req now).state.db.audit =
        ev :: ⟨"SESSION_EXPIRED", some em, req.ip, none⟩ :: st.db.audit ∧
      branchTag (authorize cfg st req now).branch = some ev.eventType ∧
      ev.ipAddress = req.ip) := by
  simp only [authorize]
  split
  · exact Or.inr (Or.inr (Or.inl ⟨_, rfl, rfl, rfl⟩))
  · split
    · exact Or.inl ⟨rfl, rfl⟩
    · split
      · exact Or.inl ⟨rfl, rfl⟩
      · split
        · exact Or.inr (Or.inr (Or.inl ⟨_, rfl, rfl, rfl⟩))
        · split
          · exact Or.inr (Or.inr (Or.inl ⟨_, rfl, rfl, rfl⟩))
          · exact audit_session_phase _ _ _ _ _

/-- C3 counterexample: a fresh identity with no key reaches the terminal
    key-required rejection and the call writes no audit event at all. -/
theorem key_required_no_audit_event :
    (authorize cfgOff stEmpty ⟨some ⟨some "a@b.co", none⟩, "203.0.113.9"⟩ 5).branch
      = .keyRequired ∧
    (authorize cfgOff stEmpty ⟨some ⟨some "a@b.co", none⟩, "203.0.113.9"⟩ 5).resp.status
      = 401 ∧
    (authorize cfgOff stEmpty ⟨some ⟨some "a@b.co", none⟩, "203.0.113.9"⟩ 5).resp.authorized
      = false ∧
    (authorize cfgOff stEmpty ⟨some ⟨some "a@b.co", none⟩, "203.0.113.9"⟩ 5).state.db.audit
      = [] := by
  decide

/-- C3 (amended): the terminal branches that log (rate-limited, invalid
    email, not-whitelisted, session-resumed, invalid key format, key not
    found, key already used, key activated) write exactly one audit event
    tagged with the branch and carrying the caller address, on top of at
    most one session-expiry event from the lazy deletion; the
    missing-body, missing-email and key-required rejections write no
    terminal event. -/
theorem audit_per_branch (cfg : Config) (st : ServerState) (req : AuthRequest)
    (now : Int) :
    (∀ tag, branchTag (authorize cfg st req now).branch = some tag →
      ∃ ev pre, (authorize cfg st req now).state.db.audit =
          ev :: (pre ++ st.db.audit) ∧
        ev.eventType = tag ∧ ev.ipAddress = req.ip ∧
        (pre = [] ∨
          ∃ em, pre = [⟨"SESSION_EXPIRED", some em, req.ip, none⟩])) ∧
    (branchTag (authorize cfg st req now).branch = none →
      (authorize cfg st req now).state.db.audit = st.db.audit ∨
      ∃ em, (authorize cfg st req now).state.db.audit =
        ⟨"SESSION_EXPIRED", some em, req.ip, none⟩ :: st.db.audit) := by
  rcases audit_authorize cfg st req now with
    ⟨ha, hb⟩ | ⟨em, ha, hb⟩ | ⟨ev, ha, hb, hc⟩ | ⟨ev, em, ha, hb, hc⟩
  · constructor
    · intro tag htag
      rw [hb] at htag
      cases htag
    · intro _
      exact Or.inl ha
  · constructor
    · intro tag htag
      rw [hb] at htag
      cases htag
    · intro _
      exact Or.inr ⟨em, ha⟩
  · constructor
    · intro tag htag
      rw [hb] at htag
      injection htag with he
      exact ⟨ev, [], by simpa using ha, he, hc, Or.inl rfl⟩
    · intro hnone
      rw [hb] at hnone
      cases hnone
  · constructor
    · intro tag htag
      rw [hb] at htag
      injection htag with he
      exact ⟨ev, [⟨"SESSION_EXPIRED", some em, req.ip, none⟩], ha, he, hc,
        Or.inr ⟨em, rfl⟩⟩
    · intro hnone
      rw [hb] at hnone
      cases hnone

/-- Witness for C3 (amended): the key-required input writes nothing. -/
theorem audit_per_branch_witness :
    (authorize cfgOff stEmpty ⟨some ⟨some "a@b.co", none⟩, "203.0.113.9"⟩ 5).state.db.audit
      = stEmpty.db.audit ∨
    ∃ em, (authorize cfgOff stEmpty ⟨some ⟨some "a@b.co", none⟩, "203.0.113.9"⟩ 5).state.db.audit
      = ⟨"SESSION_EXPIRED", some em, "203.0.113.9", none⟩ :: stEmpty.db.audit :=
  (audit_per_branch cfgOff stEmpty ⟨some ⟨some "a@b.co", none⟩, "203.0.113.9"⟩ 5).2
    (by decide)

end Connect
